import Mathlib

/-!
Shallow embedding of the test-harness and patching code of the repository:
`tests/conftest.py` (mock-server supervisor, ContextStore client, isolation
fixtures) and `wandb/integration/kfp/kfp_patch.py` (patch/unpatch and the
patched kfp component builders).
-/

namespace Conftest

/-- Outcome of one iteration of the liveness-poll loop in
`start_mock_server` (`conftest.py` lines 101-115): either `requests.get`
returned with some HTTP status code, or it raised a
`requests.exceptions.RequestException` while the child was still alive
(`server.poll() is None`), or it raised while the child had exited
(`server.poll()` returned an exit code `rc`). -/
inductive Attempt where
  | ok (status : Nat)
  | failAlive
  | failDead (rc : Int)
deriving DecidableEq, Repr

/-- Observable actions performed by `start_mock_server` during startup. -/
inductive Action where
  | request (timeout : Nat)
  | sleep (secs : Nat)
  | terminateChild
  | dumpLog
deriving DecidableEq, Repr

/-- The number of HTTP liveness requests in an action trace. -/
def countRequests : List Action → Nat
  | [] => 0
  | .request _ :: rest => countRequests rest + 1
  | .sleep _ :: rest => countRequests rest
  | .terminateChild :: rest => countRequests rest
  | .dumpLog :: rest => countRequests rest

/-- Result of the poll loop body: success was observed (`started = True`
and `break`), the ten attempts were exhausted without success, or the
in-loop `raise ValueError("Server failed to start.")` fired because the
child had exited. -/
inductive PollResult where
  | started
  | exhausted
  | earlyExit (rc : Int)
deriving DecidableEq, Repr

/-- The `for i in range(10)` loop of `start_mock_server`, run over the list
of per-iteration outcomes.  Each iteration issues one `requests.get` with
`timeout=5`.  Status 200 sets `started` and breaks; any other status just
prints and continues (no sleep); a `RequestException` with the child alive
sleeps 1 second and continues; a `RequestException` with the child exited
raises immediately. -/
def runPoll : List Attempt → PollResult × List Action
  | [] => (.exhausted, [])
  | a :: rest =>
    match a with
    | .ok status =>
      if status = 200 then (.started, [.request 5])
      else ((runPoll rest).1, .request 5 :: (runPoll rest).2)
    | .failAlive => ((runPoll rest).1, .request 5 :: .sleep 1 :: (runPoll rest).2)
    | .failDead rc => (.earlyExit rc, [.request 5])

/-- Errors `start_mock_server` can raise. -/
inductive StartError where
  | earlyExitError (rc : Int)
  | exhaustedError
deriving DecidableEq, Repr

/-- The handle `start_mock_server` returns: the subprocess object, carrying
the allocated port and `base_url = "http://localhost:%i" % port`. -/
structure ServerHandle where
  port : Nat
  baseUrl : String
deriving DecidableEq, Repr

/-- The base URL computed at `conftest.py` line 85:
`"http://localhost:%i" % port`. -/
def mkBaseUrl (port : Nat) : String :=
  "http://localhost:" ++ toString port

/-- The function `start_mock_server` (`conftest.py` lines 65-133), after
the child is spawned: polls with at most 10 attempts (`attempt i` is the
outcome of iteration `i`), and on failure either raises from inside the
loop (child exited: no terminate, no log dump) or, after the loop,
terminates the child, dumps the captured log and raises.  Returns the
result together with the trace of observable actions. -/
def start_mock_server (port : Nat) (attempt : Nat → Attempt) :
    Except StartError ServerHandle × List Action :=
  let pr := runPoll ((List.range 10).map attempt)
  match pr.1 with
  | .started => (.ok { port := port, baseUrl := mkBaseUrl port }, pr.2)
  | .earlyExit rc => (.error (.earlyExitError rc), pr.2)
  | .exhausted => (.error .exhaustedError, pr.2 ++ [.terminateChild, .dumpLog])

/-! Environment-variable model for the isolation fixtures. -/

/-- The process environment `os.environ`, as a partial map from variable
names to values. -/
abbrev Env : Type := String → Option String

/-- Assignment `os.environ[k] = v`. -/
def setEnv (e : Env) (k v : String) : Env :=
  fun x => if x = k then some v else e x

/-- Deletion `del os.environ[k]`. -/
def delEnv (e : Env) (k : String) : Env :=
  fun x => if x = k then none else e x

/-- The server-side Context: a mutable JSON mapping held by the mock
server, here a list of key/value pairs. -/
abbrev Ctx : Type := List (String × String)

/-- The empty/reset Context. -/
def emptyCtx : Ctx := []

/-- Modelled from the spec: `tests/utils/mock_server.py` (the HTTP server
handling `DELETE /ctx`) is not under `src/`; per the spec, `DELETE /ctx`
"clears context", so the handler replaces the Context by the empty one. -/
def ctxDelete (_ : Ctx) : Ctx := emptyCtx

/-- Combined state the `live_mock_server` fixture acts on: the process
environment and the server-side Context. -/
structure HarnessState where
  env : Env
  ctx : Ctx

/-- Setup phase of `live_mock_server` (`conftest.py` lines 292-302): set
the four `WANDB_*` environment variables, then `server.reset_ctx()`
(which issues `DELETE /ctx`, clearing the Context), then yield. -/
def live_mock_server_setup (name baseUrl apiKey : String) (s : HarnessState) :
    HarnessState :=
  { env := setEnv (setEnv (setEnv (setEnv s.env
      "WANDB_USERNAME" name)
      "WANDB_BASE_URL" baseUrl)
      "WANDB_ERROR_REPORTING" "false")
      "WANDB_API_KEY" apiKey,
    ctx := ctxDelete s.ctx }

/-- Teardown phase of `live_mock_server` (`conftest.py` lines 303-306),
run by the test framework after the test body regardless of its outcome:
`del os.environ[...]` for each of the four variables; the Context is not
touched. -/
def live_mock_server_teardown (s : HarnessState) : HarnessState :=
  let e := delEnv (delEnv (delEnv (delEnv s.env "WANDB_USERNAME") "WANDB_BASE_URL") "WANDB_ERROR_REPORTING") "WANDB_API_KEY"
  { s with env := e }

/-- The env-var handling of `wandb_init_run` (`conftest.py` lines
421-422): `os.environ[k] = v` for every pair in `args["env"]`. -/
def wandb_init_run_setup (envArgs : List (String × String)) (e : Env) : Env :=
  envArgs.foldl (fun acc kv => setEnv acc kv.1 kv.2) e

/-- The finally-block of `wandb_init_run` (`conftest.py` lines 434-437):
`del os.environ[k]` for every pair in `args["env"]`. -/
def wandb_init_run_teardown (envArgs : List (String × String)) (e : Env) : Env :=
  envArgs.foldl (fun acc kv => delEnv acc kv.1) e

/-- A session: a list of test bodies, each run inside `live_mock_server`
setup/teardown.  Returns the list of Context values observed at the start
of each test body, plus the final state. -/
def runSession (name baseUrl apiKey : String) :
    List (HarnessState → HarnessState) → HarnessState → List Ctx × HarnessState
  | [], s => ([], s)
  | body :: rest, s =>
    let s1 := live_mock_server_setup name baseUrl apiKey s
    let later := runSession name baseUrl apiKey rest
      (live_mock_server_teardown (body s1))
    (s1.ctx :: later.1, later.2)

/-! The `local_netrc` path-expansion patch. -/

/-- Prefix test on character lists. -/
def listIsPrefixOf : List Char → List Char → Bool
  | [], _ => true
  | _ :: _, [] => false
  | a :: as, b :: bs => a == b && listIsPrefixOf as bs

/-- Python's `needle in hay` substring test, on character lists. -/
def listContains (needle : List Char) : List Char → Bool
  | [] => listIsPrefixOf needle []
  | c :: rest => listIsPrefixOf needle (c :: rest) || listContains needle rest

/-- Python's `needle in hay` on strings. -/
def strContains (needle hay : String) : Bool :=
  listContains needle.data hay.data

/-- Resolution `os.path.realpath(rel)` of a relative name, with the
current working directory being the isolated sandbox directory. -/
def realpathIn (cwd rel : String) : String := cwd ++ "/" ++ rel

/-- The `expand` closure installed by `local_netrc` (`conftest.py` lines
269-270): `os.path.realpath("netrc") if "netrc" in path else
origexpand(path)`, where the cwd is the isolated sandbox root. -/
def expand (cwd : String) (origexpand : String → String) (path : String) :
    String :=
  if strContains "netrc" path then realpathIn cwd "netrc" else origexpand path

/-! ContextStore HTTP client closures (`conftest.py` lines 87-98). -/

/-- A decoded JSON document (opaque payload). -/
abbrev Json : Type := String

/-- A single HTTP request as issued by the `requests` calls. -/
structure HttpReq where
  method : String
  url : String
  payload : Option Json
deriving DecidableEq

/-- A network failure (`requests.exceptions.RequestException`). -/
inductive NetErr where
  | requestException
deriving DecidableEq, Repr

/-- The network, scripted: a queue of responses (each either a decoded
JSON body or a raised network error), plus the log of requests issued. -/
structure Wire where
  script : List (Except NetErr Json)
  log : List HttpReq

/-- One synchronous `requests.<method>(url).json()` round trip: consumes
exactly one scripted response; a raised error propagates unchanged. -/
def doRequest (req : HttpReq) (w : Wire) : Except NetErr Json × Wire :=
  match w.script with
  | [] => (.error .requestException, { w with log := w.log ++ [req] })
  | r :: rest => (r, { script := rest, log := w.log ++ [req] })

/-- The closure `get_ctx`: `requests.get(server.base_url + "/ctx").json()`. -/
def get_ctx (base : String) (w : Wire) : Except NetErr Json × Wire :=
  doRequest { method := "GET", url := base ++ "/ctx", payload := none } w

/-- The closure `set_ctx`:
`requests.put(server.base_url + "/ctx", json=payload).json()`. -/
def set_ctx (base : String) (payload : Json) (w : Wire) :
    Except NetErr Json × Wire :=
  doRequest { method := "PUT", url := base ++ "/ctx", payload := some payload } w

/-- The closure `reset_ctx`:
`requests.delete(server.base_url + "/ctx").json()`. -/
def reset_ctx (base : String) (w : Wire) : Except NetErr Json × Wire :=
  doRequest { method := "DELETE", url := base ++ "/ctx", payload := none } w

end Conftest

namespace KfpPatch

/-- Errors raised by the patching code: `AttributeError` from a failing
`getattr`, and `TypeError` from `None += [...]`. -/
inductive PyError where
  | attributeError
  | typeError
deriving DecidableEq, Repr

/-- The mutable state `patch`/`unpatch` act on, for one target module:
the module's attribute map (`getattr`/`setattr`) and the registry entry
`wandb.patched[module.__name__]` as the list of patched attribute
names. -/
structure ModuleState (α : Type) where
  attrs : String → Option α
  patched : List String

/-- Assignment `setattr(module, k, v)` (with `v = none` meaning the
attribute is absent). -/
def setAttr {α : Type} (a : String → Option α) (k : String) (v : Option α) :
    String → Option α :=
  fun x => if x = k then v else a x

/-- The function `patch(func, module)` (`kfp_patch.py` lines 15-19),
which saves the current
`module.<name>` under `module.orig_<name>`, installs `func` as
`module.<name>`, and appends the name to `wandb.patched[module.__name__]`
(created by `setdefault` if absent).  `getattr` on a missing attribute
raises `AttributeError`. -/
def patch {α : Type} (fname : String) (f : α) (m : ModuleState α) :
    Except PyError (ModuleState α) :=
  match m.attrs fname with
  | none => .error .attributeError
  | some orig =>
    .ok { attrs := setAttr (setAttr m.attrs ("orig_" ++ fname) (some orig))
            fname (some f),
          patched := m.patched ++ [fname] }

/-- The function `unpatch(module)` (`kfp_patch.py` lines 22-25): for
every registered
name, reinstalls `module.orig_<name>` as `module.<name>` (raising
`AttributeError` if the saved original is missing), then empties the
registry entry. -/
def unpatch {α : Type} (m : ModuleState α) : Except PyError (ModuleState α) := do
  let attrs ← m.patched.foldlM (fun a fn =>
    match a ("orig_" ++ fn) with
    | none => Except.error PyError.attributeError
    | some v => Except.ok (setAttr a fn (some v))) m.attrs
  Except.ok { attrs := attrs, patched := [] }

/-- The component spec assembled by `create_component_from_func`: the
record of arguments handed to the external
`kfp.components._python_op._func_to_component_spec`, plus the metadata
attached afterwards. -/
structure ComponentSpec (Func : Type) where
  func : Func
  extraCode : String
  baseImage : Option String
  packagesToInstall : List String
  metadataAnnotations : Option (List (String × String))

/-- Observable side effects of `create_component_from_func`, in order:
the external spec construction, the metadata assignment, the component
file save, and the final task-factory creation. -/
inductive KfpEvent where
  | specConstructed
  | metadataSet
  | fileSaved (path : String)
  | taskFactoryCreated
deriving DecidableEq, Repr

/-- The Python default of the `packages_to_install` parameter
(`kfp_patch.py` line 66): `None`. -/
def defaultPackagesToInstall : Option (List String) := none

/-- The function `create_component_from_func` (`kfp_patch.py` lines
61-175): it first
executes `packages_to_install += ["wandb"]` — a `TypeError` when the
argument is `None` —, then calls `_func_to_component_spec`, optionally
attaches `MetadataSpec(annotations)`, optionally saves the component
file, and builds the task factory.  The external kfp calls are modelled
as the spec record and the event trace. -/
def create_component_from_func {Func : Type} (func : Func)
    (extra_code : String) (output_component_file : Option String)
    (base_image : Option String) (packages_to_install : Option (List String))
    (annotations : Option (List (String × String))) :
    Except PyError (ComponentSpec Func) × List KfpEvent :=
  match packages_to_install with
  | none => (.error .typeError, [])
  | some pkgs =>
    let pkgs := pkgs ++ ["wandb"]
    let spec : ComponentSpec Func :=
      { func := func, extraCode := extra_code, baseImage := base_image,
        packagesToInstall := pkgs, metadataAnnotations := none }
    let (spec, annEvents) :=
      match annotations with
      | some ann => ({ spec with metadataAnnotations := some ann },
          [KfpEvent.metadataSet])
      | none => (spec, [])
    let saveEvents :=
      match output_component_file with
      | some p => [KfpEvent.fileSaved p]
      | none => []
    (.ok spec,
      KfpEvent.specConstructed :: annEvents ++ saveEvents
        ++ [KfpEvent.taskFactoryCreated])

/-- Python's `s.split("\n")` on a character list: always yields at least
one segment (the empty string splits to `[""]`). -/
def splitLines : List Char → List (List Char)
  | [] => [[]]
  | c :: cs =>
    let r := splitLines cs
    if c = '\n' then [] :: r
    else
      match r with
      | [] => [[c]]
      | l :: ls => (c :: l) :: ls

/-- Python's `"\n".join(lines)` on character lists. -/
def joinLines : List (List Char) → List Char
  | [] => []
  | [l] => l
  | l :: ls => l ++ '\n' :: joinLines ls

/-- The function `_get_function_source_definition` (`kfp_patch.py` lines
36-58): dedents the source obtained by `inspect.getsource` (the external
`textwrap.dedent` is a parameter), splits on newlines, raises
`ValueError` if the line list is empty (the decorator-stripping step of
the upstream version is commented out), and otherwise rejoins the lines
with newlines. -/
def _get_function_source_definition (dedent : List Char → List Char)
    (funcSource : List Char) : Except String (List Char) :=
  let func_code := dedent funcSource
  let func_code_lines := splitLines func_code
  if func_code_lines.isEmpty then
    .error "Failed to dedent and clean up the source of function"
  else
    .ok (joinLines func_code_lines)

/-- A concrete module carrying a single function attribute `f` (with
value `0`) and an empty patch registry, used to evaluate the
patch/unpatch round trip. -/
def exampleModule : ModuleState Nat :=
  { attrs := fun x => if x = "f" then some 0 else none, patched := [] }

/-- The round trip on `exampleModule`: `patch` the attribute `f`
(replacing its value by `1`), then `unpatch` the module. -/
def roundTripExample : Except PyError (ModuleState Nat) := do
  let m1 ← patch "f" 1 exampleModule
  unpatch m1

end KfpPatch

/-! Lemmas about the liveness-poll loop. -/

namespace Conftest

lemma runPoll_actions_poll_only (l : List Attempt) :
    ∀ a ∈ (runPoll l).2, a = Action.request 5 ∨ a = Action.sleep 1 := by
  induction l with
  | nil => simp [runPoll]
  | cons a rest ih =>
    cases a with
    | ok s =>
      by_cases hs : s = 200
      · simp [runPoll, hs]
      · intro x hx
        simp only [runPoll, hs, if_false, List.mem_cons] at hx
        rcases hx with hx | hx
        · exact Or.inl hx
        · exact ih x hx
    | failAlive =>
      intro x hx
      simp only [runPoll, List.mem_cons] at hx
      rcases hx with hx | hx | hx
      · exact Or.inl hx
      · exact Or.inr hx
      · exact ih x hx
    | failDead rc => simp [runPoll]

lemma runPoll_started_of_mem (l1 l2 : List Attempt)
    (h : ∀ a ∈ l1, (∀ s, a = Attempt.ok s → s ≠ 200) ∧
      ∀ rc, a ≠ Attempt.failDead rc) :
    (runPoll (l1 ++ Attempt.ok 200 :: l2)).1 = PollResult.started := by
  induction l1 with
  | nil => simp [runPoll]
  | cons a l1 ih =>
    have ha := h a (List.mem_cons_self a l1)
    have htail : ∀ x ∈ l1, (∀ s, x = Attempt.ok s → s ≠ 200) ∧
        ∀ rc, x ≠ Attempt.failDead rc :=
      fun x hx => h x (List.mem_cons_of_mem a hx)
    cases a with
    | ok s =>
      have hs : s ≠ 200 := ha.1 s rfl
      simpa [runPoll, hs] using ih htail
    | failAlive => simpa [runPoll] using ih htail
    | failDead rc => exact absurd rfl (ha.2 rc)

lemma runPoll_not_started (l : List Attempt)
    (h : ∀ a ∈ l, a ≠ Attempt.ok 200) :
    (runPoll l).1 ≠ PollResult.started := by
  induction l with
  | nil => simp [runPoll]
  | cons a rest ih =>
    have htail : ∀ x ∈ rest, x ≠ Attempt.ok 200 :=
      fun x hx => h x (List.mem_cons_of_mem a hx)
    cases a with
    | ok s =>
      by_cases hs : s = 200
      · exact absurd (show Attempt.ok s = Attempt.ok 200 by rw [hs])
          (h _ (List.mem_cons_self _ rest))
      · simpa [runPoll, hs] using ih htail
    | failAlive => simpa [runPoll] using ih htail
    | failDead rc => simp [runPoll]

lemma countRequests_append (l1 l2 : List Action) :
    countRequests (l1 ++ l2) = countRequests l1 + countRequests l2 := by
  induction l1 with
  | nil => simp [countRequests]
  | cons a rest ih =>
    cases a <;> simp [countRequests, ih]
    omega

lemma runPoll_succeeds_at_first_ok (attempt : Nat → Attempt)
    (h : ∃ i, i < 10 ∧ attempt i = Attempt.ok 200 ∧
      ∀ j, j < i → ∀ rc, attempt j ≠ Attempt.failDead rc) :
    (runPoll ((List.range 10).map attempt)).1 = PollResult.started := by
  obtain ⟨i, hi, h200, hnd⟩ := h
  have hex : ∃ n, attempt n = Attempt.ok 200 := ⟨i, h200⟩
  have hspec : attempt (Nat.find hex) = Attempt.ok 200 := Nat.find_spec hex
  have hle : Nat.find hex ≤ i := Nat.find_min' hex h200
  have hmin : ∀ j, j < Nat.find hex → attempt j ≠ Attempt.ok 200 :=
    fun j hj => Nat.find_min hex hj
  have hi0 : Nat.find hex < 10 := lt_of_le_of_lt hle hi
  have hdecomp : (List.range 10).map attempt =
      (List.range (Nat.find hex)).map attempt ++
        Attempt.ok 200 :: (List.range' (Nat.find hex + 1) (9 - Nat.find hex)).map attempt := by
    have h1 : List.range 10 =
        List.range (Nat.find hex) ++ List.range' (Nat.find hex) (10 - Nat.find hex) := by
      rw [List.range_eq_range', List.range_eq_range']
      rw [show (10 : Nat) = (10 - Nat.find hex) + Nat.find hex by omega]
      rw [← List.range'_append_1 0 (Nat.find hex) (10 - Nat.find hex)]
      simp
    have h2 : List.range' (Nat.find hex) (10 - Nat.find hex) =
        Nat.find hex :: List.range' (Nat.find hex + 1) (9 - Nat.find hex) := by
      rw [show 10 - Nat.find hex = (9 - Nat.find hex) + 1 by omega]
      exact List.range'_succ _ _ _
    rw [h1, h2, List.map_append, List.map_cons, hspec]
  rw [hdecomp]
  apply runPoll_started_of_mem
  intro a ha
  obtain ⟨j, hj, rfl⟩ : ∃ j, j < Nat.find hex ∧ attempt j = a := by
    simpa [List.mem_map, List.mem_range] using ha
  exact ⟨fun s hs hcontra => hmin j hj (by rw [hs, hcontra]),
    fun rc => hnd j (lt_of_lt_of_le hj hle) rc⟩

lemma runPoll_request_count (l : List Attempt) :
    countRequests (runPoll l).2 ≤ l.length := by
  induction l with
  | nil => simp [runPoll, countRequests]
  | cons a rest ih =>
    cases a with
    | ok s =>
      by_cases hs : s = 200
      · simp [runPoll, hs, countRequests]
      · simp only [runPoll, hs, if_false, countRequests, List.length_cons]
        omega
    | failAlive =>
      simp only [runPoll, countRequests, List.length_cons]
      omega
    | failDead rc => simp [runPoll, countRequests]

end Conftest

open Conftest KfpPatch

/-- C1 (amended): on exhausting the 10-attempt retry budget,
`start_mock_server` terminates the child, dumps the captured server log,
and raises a fatal `ValueError`; on premature child exit detected inside
the poll loop it raises immediately, performing neither the terminate nor
the log dump. -/
theorem C1_failure_path_actions (port : Nat) (attempt : Nat → Attempt) :
    ((runPoll ((List.range 10).map attempt)).1 = PollResult.exhausted →
      (start_mock_server port attempt).1 = Except.error StartError.exhaustedError ∧
      Action.terminateChild ∈ (start_mock_server port attempt).2 ∧
      Action.dumpLog ∈ (start_mock_server port attempt).2) ∧
    (∀ rc, (runPoll ((List.range 10).map attempt)).1 = PollResult.earlyExit rc →
      (start_mock_server port attempt).1 =
        Except.error (StartError.earlyExitError rc) ∧
      Action.terminateChild ∉ (start_mock_server port attempt).2 ∧
      Action.dumpLog ∉ (start_mock_server port attempt).2) := by
  constructor
  · intro h
    simp only [start_mock_server, h]
    refine ⟨trivial, ?_, ?_⟩ <;> simp [List.mem_append]
  · intro rc h
    simp only [start_mock_server, h]
    refine ⟨trivial, ?_, ?_⟩ <;>
      · intro hmem
        rcases runPoll_actions_poll_only _ _ hmem with h1 | h1 <;> simp at h1

/-- C1 witness: with every poll attempt returning HTTP 500, the retry
budget is exhausted and the exhaustion path terminates the child and
dumps the log. -/
theorem C1_failure_path_actions_witness :
    (runPoll ((List.range 10).map (fun _ => Attempt.ok 500))).1 =
      PollResult.exhausted ∧
    Action.terminateChild ∈
      (start_mock_server 8080 (fun _ => Attempt.ok 500)).2 ∧
    Action.dumpLog ∈ (start_mock_server 8080 (fun _ => Attempt.ok 500)).2 :=
  ⟨by decide,
    ((C1_failure_path_actions 8080 (fun _ => Attempt.ok 500)).1 (by decide)).2.1,
    ((C1_failure_path_actions 8080 (fun _ => Attempt.ok 500)).1 (by decide)).2.2⟩

/-- C1 counterexample: when the child has already exited at the first
poll attempt, `start_mock_server` raises but the action trace contains
neither the child termination nor the log dump, refuting the claim that
both failure paths perform all three steps. -/
theorem C1_counterexample :
    (start_mock_server 8080 (fun _ => Attempt.failDead 1)).1 =
      Except.error (StartError.earlyExitError 1) ∧
    Action.terminateChild ∉
      (start_mock_server 8080 (fun _ => Attempt.failDead 1)).2 ∧
    Action.dumpLog ∉ (start_mock_server 8080 (fun _ => Attempt.failDead 1)).2 :=
  ⟨rfl, by decide, by decide⟩

/-- C2: the liveness poll is bounded by 10 attempts, every attempt uses a
5-second timeout, every backoff sleep is exactly 1 second (and sleeps are
emitted only in the exception-while-alive branch of `runPoll`), and if
some attempt within the budget returns HTTP 200 (the child not having
exited earlier), `start_mock_server` returns a handle whose base URL is
built from the allocated port. -/
theorem C2_liveness_poll (port : Nat) (attempt : Nat → Attempt) :
    (countRequests (start_mock_server port attempt).2 ≤ 10 ∧
     (∀ t, Action.request t ∈ (start_mock_server port attempt).2 → t = 5) ∧
     (∀ s, Action.sleep s ∈ (start_mock_server port attempt).2 → s = 1)) ∧
    ((∃ i, i < 10 ∧ attempt i = Attempt.ok 200 ∧
        ∀ j, j < i → ∀ rc, attempt j ≠ Attempt.failDead rc) →
      (start_mock_server port attempt).1 =
        Except.ok { port := port, baseUrl := mkBaseUrl port } ∧
      mkBaseUrl port = "http://localhost:" ++ toString port) := by
  have hcount := runPoll_request_count ((List.range 10).map attempt)
  have hlen : ((List.range 10).map attempt).length = 10 := by simp
  rw [hlen] at hcount
  have hpoll := runPoll_actions_poll_only ((List.range 10).map attempt)
  constructor
  · have htrace : ∀ a ∈ (start_mock_server port attempt).2,
        a = Action.request 5 ∨ a = Action.sleep 1 ∨
          a = Action.terminateChild ∨ a = Action.dumpLog := by
      intro a ha
      cases hpr : (runPoll ((List.range 10).map attempt)).1 with
      | started =>
        simp only [start_mock_server, hpr] at ha
        rcases hpoll a ha with h | h
        · exact Or.inl h
        · exact Or.inr (Or.inl h)
      | exhausted =>
        simp only [start_mock_server, hpr] at ha
        rcases List.mem_append.mp ha with h | h
        · rcases hpoll a h with h1 | h1
          · exact Or.inl h1
          · exact Or.inr (Or.inl h1)
        · simp only [List.mem_cons, List.mem_singleton] at h
          rcases h with h | h | h
          · exact Or.inr (Or.inr (Or.inl h))
          · exact Or.inr (Or.inr (Or.inr h))
          · simp at h
      | earlyExit rc =>
        simp only [start_mock_server, hpr] at ha
        rcases hpoll a ha with h | h
        · exact Or.inl h
        · exact Or.inr (Or.inl h)
    refine ⟨?_, ?_, ?_⟩
    · cases hpr : (runPoll ((List.range 10).map attempt)).1 with
      | started => simpa only [start_mock_server, hpr] using hcount
      | exhausted =>
        simp only [start_mock_server, hpr, countRequests_append]
        simpa [countRequests] using hcount
      | earlyExit rc => simpa only [start_mock_server, hpr] using hcount
    · intro t ht
      rcases htrace _ ht with h | h | h | h
      · injection h with h2
      · exact absurd h (by simp)
      · exact absurd h (by simp)
      · exact absurd h (by simp)
    · intro s hs
      rcases htrace _ hs with h | h | h | h
      · exact absurd h (by simp)
      · injection h with h2
      · exact absurd h (by simp)
      · exact absurd h (by simp)
  · intro h
    have hstart := runPoll_succeeds_at_first_ok attempt h
    simp only [start_mock_server, hstart]
    exact ⟨trivial, rfl⟩

/-- C2 witness: with every attempt answering HTTP 200 at once, the
hypothesis holds at attempt 0 and the returned handle has the base URL
of the allocated port 4321. -/
theorem C2_liveness_poll_witness :
    (∃ i, i < 10 ∧ (fun _ => Attempt.ok 200) i = Attempt.ok 200 ∧
      ∀ j, j < i → ∀ rc, (fun _ => Attempt.ok 200) j ≠ Attempt.failDead rc) ∧
    (start_mock_server 4321 (fun _ => Attempt.ok 200)).1 =
      Except.ok { port := 4321, baseUrl := mkBaseUrl 4321 } :=
  ⟨⟨0, by omega, rfl, fun j hj rc => by omega⟩,
    ((C2_liveness_poll 4321 (fun _ => Attempt.ok 200)).2
      ⟨0, by omega, rfl, fun j hj rc => by omega⟩).1⟩

/-- C5: if no poll attempt within the 10-attempt budget returns HTTP 200
(in particular when the child process exits before ever responding
successfully), `start_mock_server` raises an exception and never returns
a server handle. -/
theorem C5_no_success_raises (port : Nat) (attempt : Nat → Attempt)
    (_hdead : ∃ k, k < 10 ∧ ∃ rc, attempt k = Attempt.failDead rc)
    (h200 : ∀ i, i < 10 → attempt i ≠ Attempt.ok 200) :
    ∃ e, (start_mock_server port attempt).1 = Except.error e := by
  have hl : ∀ a ∈ (List.range 10).map attempt, a ≠ Attempt.ok 200 := by
    intro a ha
    obtain ⟨i, hi, rfl⟩ : ∃ i, i < 10 ∧ attempt i = a := by
      simpa [List.mem_map, List.mem_range] using ha
    exact h200 i hi
  have hns := runPoll_not_started _ hl
  cases hpr : (runPoll ((List.range 10).map attempt)).1 with
  | started => exact absurd hpr hns
  | exhausted =>
    exact ⟨StartError.exhaustedError, by simp only [start_mock_server, hpr]⟩
  | earlyExit rc =>
    exact ⟨StartError.earlyExitError rc, by simp only [start_mock_server, hpr]⟩

/-- C5 witness: a child that is already dead at every poll attempt makes
`start_mock_server` raise. -/
theorem C5_no_success_raises_witness :
    (∃ k, k < 10 ∧ ∃ rc,
      (fun _ => Attempt.failDead 2) k = Attempt.failDead rc) ∧
    (∀ i, i < 10 → (fun _ => Attempt.failDead 2) i ≠ Attempt.ok 200) ∧
    ∃ e, (start_mock_server 9999 (fun _ => Attempt.failDead 2)).1 =
      Except.error e :=
  ⟨⟨0, by omega, 2, rfl⟩, fun i hi => by simp,
    C5_no_success_raises 9999 (fun _ => Attempt.failDead 2)
      ⟨0, by omega, 2, rfl⟩ (fun i hi => by simp)⟩

/-! Lemmas about the environment-variable folds of `wandb_init_run`. -/

lemma wandb_setup_not_mem (envArgs : List (String × String)) (e : Env)
    (k : String) (h : k ∉ envArgs.map Prod.fst) :
    wandb_init_run_setup envArgs e k = e k := by
  induction envArgs generalizing e with
  | nil => rfl
  | cons kv rest ih =>
    simp only [List.map_cons, List.mem_cons, not_or] at h
    simp only [wandb_init_run_setup, List.foldl_cons]
    rw [show (rest.foldl (fun acc kv => setEnv acc kv.1 kv.2)
        (setEnv e kv.1 kv.2)) = wandb_init_run_setup rest (setEnv e kv.1 kv.2)
      from rfl]
    rw [ih _ (by simpa using h.2)]
    simp [setEnv, h.1]

lemma wandb_teardown_not_mem (envArgs : List (String × String)) (e : Env)
    (k : String) (h : k ∉ envArgs.map Prod.fst) :
    wandb_init_run_teardown envArgs e k = e k := by
  induction envArgs generalizing e with
  | nil => rfl
  | cons kv rest ih =>
    simp only [List.map_cons, List.mem_cons, not_or] at h
    simp only [wandb_init_run_teardown, List.foldl_cons]
    rw [show (rest.foldl (fun acc kv => delEnv acc kv.1)
        (delEnv e kv.1)) = wandb_init_run_teardown rest (delEnv e kv.1)
      from rfl]
    rw [ih _ (by simpa using h.2)]
    simp [delEnv, h.1]

lemma wandb_teardown_mem_none (envArgs : List (String × String)) (e : Env)
    (k : String) (h : k ∈ envArgs.map Prod.fst) :
    wandb_init_run_teardown envArgs e k = none := by
  induction envArgs generalizing e with
  | nil => simp at h
  | cons kv rest ih =>
    simp only [List.map_cons, List.mem_cons] at h
    simp only [wandb_init_run_teardown, List.foldl_cons]
    rw [show (rest.foldl (fun acc kv => delEnv acc kv.1)
        (delEnv e kv.1)) = wandb_init_run_teardown rest (delEnv e kv.1)
      from rfl]
    by_cases hr : k ∈ rest.map Prod.fst
    · exact ih _ hr
    · rcases h with h | h
      · rw [wandb_teardown_not_mem rest _ k hr]
        simp [delEnv, h]
      · exact absurd h hr

/-- C3 counterexample: `WANDB_USERNAME` is present with value `"foo"`
before `live_mock_server` setup, but after teardown it is absent — the
fixture deletes the variable instead of restoring the pre-existing
value, refuting the round-trip claim. -/
theorem C3_counterexample :
    (fun x => if x = "WANDB_USERNAME" then some "foo" else none : Env)
        "WANDB_USERNAME" = some "foo" ∧
    (live_mock_server_teardown (live_mock_server_setup "user" "url" "key"
        { env := fun x => if x = "WANDB_USERNAME" then some "foo" else none,
          ctx := [] })).env "WANDB_USERNAME" = none := by
  constructor
  · decide
  · decide

/-- C3 (amended): the environment-injecting fixtures preserve every
variable they do not manage, but each managed variable (`WANDB_USERNAME`,
`WANDB_BASE_URL`, `WANDB_ERROR_REPORTING`, `WANDB_API_KEY` for
`live_mock_server`; the keys of `args["env"]` for `wandb_init_run`) is
unconditionally deleted at teardown — also when the test body raised —
so a pre-existing value for a managed variable is lost rather than
restored. -/
theorem C3_env_overrides_deleted (e : Env) (c : Ctx)
    (name url key : String) (envArgs : List (String × String))
    (k v : String) :
    (k ∉ ["WANDB_USERNAME", "WANDB_BASE_URL", "WANDB_ERROR_REPORTING",
        "WANDB_API_KEY"] →
      e k = some v →
      (live_mock_server_teardown (live_mock_server_setup name url key
        { env := e, ctx := c })).env k = some v) ∧
    (k ∈ ["WANDB_USERNAME", "WANDB_BASE_URL", "WANDB_ERROR_REPORTING",
        "WANDB_API_KEY"] →
      (live_mock_server_teardown (live_mock_server_setup name url key
        { env := e, ctx := c })).env k = none) ∧
    (k ∉ envArgs.map Prod.fst → e k = some v →
      wandb_init_run_teardown envArgs (wandb_init_run_setup envArgs e) k
        = some v) ∧
    (k ∈ envArgs.map Prod.fst →
      wandb_init_run_teardown envArgs (wandb_init_run_setup envArgs e) k
        = none) := by
  refine ⟨?_, ?_, ?_, ?_⟩
  · intro hk hv
    simp only [List.mem_cons, List.not_mem_nil, or_false, not_or] at hk
    obtain ⟨h1, h2, h3, h4⟩ := hk
    simp [live_mock_server_teardown, live_mock_server_setup, delEnv, setEnv,
      h1, h2, h3, h4, hv]
  · intro hk
    simp only [List.mem_cons, List.not_mem_nil, or_false] at hk
    rcases hk with rfl | rfl | rfl | rfl <;>
      simp [live_mock_server_teardown, live_mock_server_setup, delEnv, setEnv]
  · intro hk hv
    rw [wandb_teardown_not_mem envArgs _ k hk,
      wandb_setup_not_mem envArgs _ k hk, hv]
  · intro hk
    exact wandb_teardown_mem_none envArgs _ k hk

/-- C3 witness: an unmanaged variable `OTHER` survives both fixtures'
setup/teardown, and the injected variable `FOO` of `wandb_init_run` is
absent after teardown. -/
theorem C3_env_overrides_deleted_witness :
    ("OTHER" ∉ ["WANDB_USERNAME", "WANDB_BASE_URL", "WANDB_ERROR_REPORTING",
        "WANDB_API_KEY"]) ∧
    ((live_mock_server_teardown (live_mock_server_setup "user" "url" "key"
        { env := fun x => if x = "OTHER" then some "keep" else none,
          ctx := [] })).env "OTHER" = some "keep") ∧
    ("FOO" ∈ ([("FOO", "1")].map Prod.fst)) ∧
    (wandb_init_run_teardown [("FOO", "1")]
      (wandb_init_run_setup [("FOO", "1")]
        (fun x => if x = "OTHER" then some "keep" else none)) "FOO" = none) :=
  ⟨by decide,
    (C3_env_overrides_deleted
        (fun x => if x = "OTHER" then some "keep" else none) []
        "user" "url" "key" [("FOO", "1")] "OTHER" "keep").1
      (by decide) (by decide),
    by decide,
    (C3_env_overrides_deleted
        (fun x => if x = "OTHER" then some "keep" else none) []
        "user" "url" "key" [("FOO", "1")] "FOO" "keep").2.2.2
      (by decide)⟩

/-- C4: for every session of tests run inside the `live_mock_server`
fixture, whatever each test body writes into the Context and the
environment, the Context observed at the start of every test body equals
the empty/reset state. -/
theorem C4_ctx_reset_at_test_start (name url key : String)
    (tests : List (HarnessState → HarnessState)) (init : HarnessState)
    (o : Ctx) (ho : o ∈ (runSession name url key tests init).1) :
    o = emptyCtx := by
  induction tests generalizing init with
  | nil => simp [runSession] at ho
  | cons body rest ih =>
    simp only [runSession, List.mem_cons] at ho
    rcases ho with h | h
    · rw [h]
      rfl
    · exact ih _ h

/-- C4 witness: in a two-test session whose first body writes into the
Context, the second test still observes the empty Context. -/
theorem C4_ctx_reset_at_test_start_witness :
    ([] : Ctx) ∈ (runSession "user" "url" "key"
      [fun s => { s with ctx := [("a", "1")] },
       fun s => s]
      { env := fun _ => none, ctx := [("leftover", "x")] }).1 ∧
    ([] : Ctx) = emptyCtx := by
  have hmem : ([] : Ctx) ∈ (runSession "user" "url" "key"
      [fun s => { s with ctx := [("a", "1")] },
       fun s => s]
      { env := fun _ => none, ctx := [("leftover", "x")] }).1 := by
    simp [runSession, live_mock_server_setup, ctxDelete, emptyCtx]
  exact ⟨hmem, C4_ctx_reset_at_test_start "user" "url" "key" _ _ [] hmem⟩

/-- C6: the `expand` function installed by `local_netrc` sends every path
containing the marker substring `netrc` to a path inside the sandbox
root (the isolated cwd), and applies the saved original expansion rule
unchanged to every other path. -/
theorem C6_netrc_expansion (cwd : String) (origexpand : String → String)
    (path : String) :
    (strContains "netrc" path = true →
      ∃ rest, expand cwd origexpand path = cwd ++ rest) ∧
    (strContains "netrc" path = false →
      expand cwd origexpand path = origexpand path) := by
  constructor
  · intro h
    refine ⟨"/" ++ "netrc", ?_⟩
    simp only [expand, h, if_true, realpathIn]
    exact String.append_assoc cwd "/" "netrc"
  · intro h
    simp [expand, h]

/-- C6 witness: the home netrc path contains the marker and resolves
inside the sandbox; an unrelated path goes through the original rule. -/
theorem C6_netrc_expansion_witness :
    strContains "netrc" "/home/user/.netrc" = true ∧
    (∃ rest, expand "/tmp/sandbox" (fun p => p) "/home/user/.netrc" =
      "/tmp/sandbox" ++ rest) ∧
    strContains "netrc" "/etc/hosts" = false ∧
    expand "/tmp/sandbox" (fun p => p) "/etc/hosts" = "/etc/hosts" :=
  ⟨by decide,
    (C6_netrc_expansion "/tmp/sandbox" (fun p => p) "/home/user/.netrc").1
      (by decide),
    by decide,
    (C6_netrc_expansion "/tmp/sandbox" (fun p => p) "/etc/hosts").2
      (by decide)⟩

/-- C7: each ContextStore client operation (`get_ctx` via GET, `set_ctx`
via PUT, `reset_ctx` via DELETE) issues exactly one HTTP request to
`base + "/ctx"`, consumes exactly one scripted response (no retry), and
propagates a network failure unchanged while returning the decoded JSON
body on success. -/
theorem C7_ctx_client_single_round_trip (base : String) (payload : Json)
    (w : Wire) :
    ((get_ctx base w).2.log = w.log ++
        [{ method := "GET", url := base ++ "/ctx", payload := none }] ∧
     (set_ctx base payload w).2.log = w.log ++
        [{ method := "PUT", url := base ++ "/ctx", payload := some payload }] ∧
     (reset_ctx base w).2.log = w.log ++
        [{ method := "DELETE", url := base ++ "/ctx", payload := none }]) ∧
    ((get_ctx base w).2.script = w.script.tail ∧
     (set_ctx base payload w).2.script = w.script.tail ∧
     (reset_ctx base w).2.script = w.script.tail) ∧
    (∀ e rest, w.script = Except.error e :: rest →
      (get_ctx base w).1 = Except.error e ∧
      (set_ctx base payload w).1 = Except.error e ∧
      (reset_ctx base w).1 = Except.error e) ∧
    (∀ j rest, w.script = Except.ok j :: rest →
      (get_ctx base w).1 = Except.ok j ∧
      (set_ctx base payload w).1 = Except.ok j ∧
      (reset_ctx base w).1 = Except.ok j) := by
  obtain ⟨script, log⟩ := w
  cases script with
  | nil =>
    refine ⟨⟨rfl, rfl, rfl⟩, ⟨rfl, rfl, rfl⟩, ?_, ?_⟩
    · intro e rest h
      simp at h
    · intro j rest h
      simp at h
  | cons r rest =>
    refine ⟨⟨rfl, rfl, rfl⟩, ⟨rfl, rfl, rfl⟩, ?_, ?_⟩
    · intro e rest' h
      injection h with h1 h2
      subst h1
      exact ⟨rfl, rfl, rfl⟩
    · intro j rest' h
      injection h with h1 h2
      subst h1
      exact ⟨rfl, rfl, rfl⟩

/-- C7 witness: on a wire scripted to raise a network error, `get_ctx`
propagates exactly that error. -/
theorem C7_ctx_client_single_round_trip_witness :
    (({ script := [Except.error NetErr.requestException], log := [] } :
        Wire).script =
      Except.error NetErr.requestException :: []) ∧
    (get_ctx "http://localhost:1"
        { script := [Except.error NetErr.requestException], log := [] }).1 =
      Except.error NetErr.requestException :=
  ⟨rfl,
    ((C7_ctx_client_single_round_trip "http://localhost:1" "x"
        { script := [Except.error NetErr.requestException], log := [] }).2.2.1
      NetErr.requestException [] rfl).1⟩

/-! Lemmas for the kfp patching code. -/

lemma orig_prefix_ne (fname : String) : "orig_" ++ fname ≠ fname := by
  intro h
  have hlen := congrArg String.length h
  rw [String.length_append] at hlen
  have h5 : ("orig_" : String).length = 5 := rfl
  omega

/-- C8 counterexample: patching `f` on a module without an `orig_f`
attribute and then unpatching leaves `orig_f = some 0` behind, so the
module's attribute map after the round trip differs from the original
one — patch followed by unpatch is not a round trip on the module's
attributes. -/
theorem C8_counterexample :
    roundTripExample.map (fun m => m.attrs "orig_f") = Except.ok (some 0) ∧
    exampleModule.attrs "orig_f" = none ∧
    roundTripExample.map (fun m => m.attrs "orig_f") ≠
      Except.ok (exampleModule.attrs "orig_f") := by
  refine ⟨rfl, rfl, fun h => ?_⟩
  exact Option.noConfusion (Except.ok.inj h)

/-- C8 (amended): for a module with an empty patch registry, `patch`
saves the original under `orig_<name>` and a subsequent `unpatch`
restores the patched attribute to its saved original, empties the
registry entry, and leaves every other attribute unchanged — except that
the backup attribute `orig_<name>` remains on the module, still holding
the original. -/
theorem C8_patch_unpatch_restores {α : Type} (m : ModuleState α)
    (fname : String) (f orig : α)
    (hempty : m.patched = []) (horig : m.attrs fname = some orig) :
    ∃ m1 m2, patch fname f m = Except.ok m1 ∧ unpatch m1 = Except.ok m2 ∧
      m2.attrs fname = some orig ∧
      m2.attrs ("orig_" ++ fname) = some orig ∧
      m2.patched = [] ∧
      (∀ k, k ≠ fname → k ≠ "orig_" ++ fname → m2.attrs k = m.attrs k) := by
  have hne := orig_prefix_ne fname
  refine ⟨⟨setAttr (setAttr m.attrs ("orig_" ++ fname) (some orig))
        fname (some f), [fname]⟩,
      ⟨setAttr (setAttr (setAttr m.attrs ("orig_" ++ fname)
          (some orig)) fname (some f)) fname (some orig), []⟩,
      ?_, ?_, ?_, ?_, rfl, ?_⟩
  · simp [patch, horig, hempty]
  · simp [unpatch, List.foldlM, setAttr, hne]
    rfl
  · simp [setAttr]
  · simp [setAttr, hne]
  · intro k hk1 hk2
    simp [setAttr, hk1, hk2]

/-- C8 witness: the round trip on the concrete example module restores
`f` to `0`, empties the registry, and leaves `orig_f = some 0` behind. -/
theorem C8_patch_unpatch_restores_witness :
    exampleModule.patched = [] ∧ exampleModule.attrs "f" = some 0 ∧
    (∃ m1 m2, patch "f" (1 : Nat) exampleModule = Except.ok m1 ∧
      unpatch m1 = Except.ok m2 ∧
      m2.attrs "f" = some 0 ∧
      m2.attrs ("orig_" ++ "f") = some 0 ∧
      m2.patched = [] ∧
      (∀ k, k ≠ "f" → k ≠ "orig_" ++ "f" →
        m2.attrs k = exampleModule.attrs k)) :=
  ⟨rfl, by decide,
    C8_patch_unpatch_restores exampleModule "f" 1 0 rfl (by decide)⟩

/-- C9: calling `create_component_from_func` with the default
`packages_to_install` argument (`None`) raises a `TypeError` (from
`None += ["wandb"]`) before any component spec is constructed: the
result is the error and the event trace is empty. -/
theorem C9_default_packages_type_error {Func : Type} (func : Func)
    (extra_code : String) (output_component_file : Option String)
    (base_image : Option String)
    (annotations : Option (List (String × String))) :
    create_component_from_func func extra_code output_component_file
      base_image defaultPackagesToInstall annotations =
      (Except.error PyError.typeError, []) := rfl

lemma splitLines_ne_nil (l : List Char) : splitLines l ≠ [] := by
  cases l with
  | nil => simp [splitLines]
  | cons c cs =>
    simp only [splitLines]
    by_cases hc : c = '\n'
    · simp [hc]
    · simp only [hc, if_false]
      cases splitLines cs <;> simp

lemma joinLines_cons_cons (a b : List Char) (ls : List (List Char)) :
    joinLines (a :: b :: ls) = a ++ '\n' :: joinLines (b :: ls) := rfl

lemma joinLines_splitLines (l : List Char) :
    joinLines (splitLines l) = l := by
  induction l with
  | nil => rfl
  | cons c cs ih =>
    obtain ⟨l0, ls, hsplit⟩ : ∃ a b, splitLines cs = a :: b := by
      cases hx : splitLines cs with
      | nil => exact absurd hx (splitLines_ne_nil cs)
      | cons a b => exact ⟨a, b, rfl⟩
    rw [hsplit] at ih
    by_cases hc : c = '\n'
    · subst hc
      have hstep : splitLines ('\n' :: cs) = [] :: l0 :: ls := by
        simp [splitLines, hsplit]
      rw [hstep, joinLines_cons_cons, ih]
      rfl
    · simp only [splitLines, hc, if_false, hsplit]
      cases ls with
      | nil =>
        simp only [joinLines] at ih ⊢
        rw [ih]
      | cons l1 ls' =>
        rw [joinLines_cons_cons] at ih
        rw [joinLines_cons_cons]
        simp only [List.cons_append, ih]

/-- C10: for every function source and every dedent result, splitting on
newlines yields a non-empty line list, so the `ValueError` branch of
`_get_function_source_definition` is unreachable and the function
returns the joined lines — the full dedented source, decorator lines
retained. -/
theorem C10_source_definition_total (dedent : List Char → List Char)
    (funcSource : List Char) :
    splitLines (dedent funcSource) ≠ [] ∧
    _get_function_source_definition dedent funcSource =
      Except.ok (dedent funcSource) := by
  refine ⟨splitLines_ne_nil _, ?_⟩
  obtain ⟨l0, ls, hsplit⟩ : ∃ a b, splitLines (dedent funcSource) = a :: b := by
    cases hx : splitLines (dedent funcSource) with
    | nil => exact absurd hx (splitLines_ne_nil _)
    | cons a b => exact ⟨a, b, rfl⟩
  have hjoin := joinLines_splitLines (dedent funcSource)
  simp only [_get_function_source_definition, hsplit, List.isEmpty_cons,
    if_false, Bool.false_eq_true]
  rw [← hsplit, hjoin]
